import Mathlib

/-!
Verification of the PR-checkout engine of the Coral GitClone agent.

The subject of this development is the function `checkout_github_pr` of
`src/main.py` (lines 22-93): it takes a repository full name `"owner/repo"`
and a pull-request number, clones the repository if needed, resolves the
default branch, deletes a stale `pr-<n>` branch, fetches `pull/<n>/head`
into a fresh `pr-<n>` branch, checks it out, and returns either the absolute
path of the working tree or an `"Error: "`-prefixed message.

The embedding is parametric in a `World`: an oracle supplying the outcome of
every external operation the Python function performs (`os.path.exists`,
`os.getcwd`, and each `subprocess.run` invocation of the git client).  Two
worlds are instantiated below: `oracleWorld`, a stateless environment holding
one fixed response per step, and `gitWorld`, a small operational model of the
git client acting on an explicit repository state.
-/

namespace GitClone

/-! ## String helpers mirroring the Python primitives -/

/-- Character-list splitter mirroring Python `str.split` with a one-character
separator: `splitChars sep l` cuts `l` at every occurrence of `sep`;
the empty list splits to `[[]]`, matching `"".split(sep) == ['']`. -/
def splitChars (sep : Char) : List Char → List (List Char)
  | [] => [[]]
  | c :: cs =>
    let r := splitChars sep cs
    if c = sep then [] :: r
    else
      match r with
      | [] => [[c]]
      | h :: t => (c :: h) :: t

/-- Python `s.split(sep)` for a one-character separator. -/
def pySplit (sep : Char) (s : String) : List String :=
  (splitChars sep s.data).map String.mk

/-- Python `repo_full_name.split('/')[-1]` (`src/main.py` line 38): the last
`'/'`-separated segment.  `pySplit` never returns `[]`, so the default of
`getLastD` is never used. -/
def lastSegment (s : String) : String :=
  (pySplit '/' s).getLastD ""

/-- Boolean list-prefix test used to implement the substring test below. -/
def isPrefixB : List Char → List Char → Bool
  | [], _ => true
  | _ :: _, [] => false
  | a :: as, b :: bs => if a = b then isPrefixB as bs else false

/-- Boolean list-infix test: does `n` occur contiguously inside `h`? -/
def isInfixB (n : List Char) : List Char → Bool
  | [] => isPrefixB n []
  | c :: t => isPrefixB n (c :: t) || isInfixB n t

/-- Python substring containment `needle in hay` (`src/main.py` line 72). -/
def containsSub (hay needle : String) : Bool :=
  isInfixB needle.data hay.data

/-- Models `os.path.join(dest_dir, repo_name)` (`src/main.py` line 40) for the
shapes occurring in the program: `dest_dir` is `os.getcwd()` (absolute, no
trailing separator) and `repo_name` is a slash-free path segment, so the join
is plain concatenation with a separator. -/
def pathJoin (a b : String) : String :=
  a ++ "/" ++ b

/-- Models `os.path.abspath(repo_path)` (`src/main.py` line 81): `repo_path`
is `os.getcwd()` joined with a segment, hence already absolute and
normalized, and `abspath` is the identity on it. -/
def osAbspath (p : String) : String :=
  p

/-- The remote URL `f'https://github.com/{repo_full_name}.git'`
(`src/main.py` line 39). -/
def repoUrl (repo_full_name : String) : String :=
  "https://github.com/" ++ repo_full_name ++ ".git"

/-- The PR branch name `f'pr-{pr_number}'` (`src/main.py` line 41). -/
def prBranch (pr_number : Int) : String :=
  "pr-" ++ toString pr_number

/-- A path is absolute when it starts with the separator. -/
def isAbsolutePath (s : String) : Prop :=
  ∃ rest, s = "/" ++ rest

/-- A result string is an error report when it carries the `"Error: "` tag. -/
def isErrorString (s : String) : Prop :=
  ∃ rest, s = "Error: " ++ rest

/-! ## Outcomes of the external operations -/

/-- Outcome of a `subprocess.run(..., check=True)` call (no output capture):
either the process completed with some exit code — its standard-error text
going to the console, not to the Python process — or the call itself raised
a non-`CalledProcessError` exception (e.g. the git binary is missing). -/
inductive StepR where
  | completed (returncode : Int) (stderrText : String)
  | raised (msg : String)
deriving DecidableEq, Repr

/-- Outcome of the `subprocess.run(..., capture_output=True, text=True)` call
(`src/main.py` line 69): completion with an exit code and captured standard
output, or an unexpected exception. -/
inductive CapR where
  | completed (returncode : Int) (stdout : String)
  | raised (msg : String)
deriving DecidableEq, Repr

/-- The Python exceptions that can cross the statements of the `try` block:
`subprocess.CalledProcessError` (carrying its `returncode` and `stderr`
attributes) or any other exception, identified by its message `str(e)`. -/
inductive PyExn where
  | calledProcessError (returncode : Int) (stderrAttr : Option String)
  | otherError (msg : String)
deriving DecidableEq, Repr

/-- f-string interpolation of the `stderr` attribute of a
`CalledProcessError` (`src/main.py` line 86): Python renders the value
`None` as the four characters `None`. -/
def stderrRepr : Option String → String
  | none => "None"
  | some s => s

/-- Semantics of `check=True` (`src/main.py` lines 50, 57, 62, 74, 77, 79):
a nonzero exit code raises `CalledProcessError`.  Because none of these calls
pass `capture_output`, the exception's `stderr` attribute is `None`; the
process's standard-error text is discarded by the Python process. -/
def checkedToExcept : StepR → Except PyExn Unit
  | StepR.completed rc _ => if rc = 0 then Except.ok () else Except.error (PyExn.calledProcessError rc none)
  | StepR.raised m => Except.error (PyExn.otherError m)

/-! ## The git commands issued by the engine -/

/-- The five git invocations `checkout_github_pr` can issue, abstracted from
their argument vectors. -/
inductive Cmd where
  | clone (url dir : String)
  | checkoutBranch (dir branch : String)
  | listBranches (dir : String)
  | deleteBranch (dir branch : String)
  | fetchPr (dir : String) (pr_number : Int) (branch : String)
deriving DecidableEq, Repr

/-- The exact argument vector passed to `subprocess.run` for each command
(`src/main.py` lines 50, 57/62/79, 69, 74, 77). -/
def Cmd.argv : Cmd → List String
  | Cmd.clone url dir => ["git", "clone", url, dir]
  | Cmd.checkoutBranch dir b => ["git", "-C", dir, "checkout", b]
  | Cmd.listBranches dir => ["git", "-C", dir, "branch"]
  | Cmd.deleteBranch dir b => ["git", "-C", dir, "branch", "-D", b]
  | Cmd.fetchPr dir n b => ["git", "-C", dir, "fetch", "origin", "pull/" ++ toString n ++ "/head:" ++ b]

/-! ## The world interface -/

/-- Oracle for the external effects of `checkout_github_pr`: the working
directory, `os.path.exists`, and the two flavours of `subprocess.run`
(checked without capture; unchecked with capture).  `σ` is the state of the
outside world, threaded through every call. -/
structure World (σ : Type) where
  getCwd : σ → String
  pathExists : σ → String → Bool
  runChecked : σ → Cmd → StepR × σ
  runCaptured : σ → Cmd → CapR × σ

/-- Sequencing of embedded statements: the continuation runs only when no
exception is pending; a pending exception propagates with the world state and
command trace it was raised in. -/
def andThen {σ α β : Type} (x : Except PyExn α × σ × List Cmd)
    (f : α → σ → List Cmd → Except PyExn β × σ × List Cmd) :
    Except PyExn β × σ × List Cmd :=
  match x with
  | (Except.ok a, s, t) => f a s t
  | (Except.error e, s, t) => (Except.error e, s, t)

/-- One `subprocess.run([...], check=True)` statement: the command is
recorded in the trace and its nonzero exit becomes a `CalledProcessError`. -/
def runCheckedCmd {σ : Type} (W : World σ) (c : Cmd) (s : σ) (t : List Cmd) :
    Except PyExn Unit × σ × List Cmd :=
  let r := W.runChecked s c
  (checkedToExcept r.1, r.2, t ++ [c])

/-- The value a captured, unchecked `subprocess.run` hands to the Python
program: the `.stdout` attribute regardless of the exit code, or the raised
exception. -/
def capToExcept : CapR → Except PyExn String
  | CapR.completed _ out => Except.ok out
  | CapR.raised m => Except.error (PyExn.otherError m)

/-- One `subprocess.run([...], capture_output=True, text=True).stdout`
statement: the exit code is ignored (no `check`), only the captured standard
output is returned. -/
def runCapturedCmd {σ : Type} (W : World σ) (c : Cmd) (s : σ) (t : List Cmd) :
    Except PyExn String × σ × List Cmd :=
  let r := W.runCaptured s c
  (capToExcept r.1, r.2, t ++ [c])

/-- The nested `try` of `src/main.py` lines 55-66: check out `main`; on
`CalledProcessError` check out `master`; on `CalledProcessError` again,
`pass`.  Exceptions other than `CalledProcessError` are not caught here. -/
def tryMainMaster {σ : Type} (W : World σ) (repo_path : String) (s : σ) (t : List Cmd) :
    Except PyExn Unit × σ × List Cmd :=
  match runCheckedCmd W (Cmd.checkoutBranch repo_path "main") s t with
  | (Except.ok _, s1, t1) => (Except.ok (), s1, t1)
  | (Except.error (PyExn.calledProcessError _ _), s1, t1) =>
    (match runCheckedCmd W (Cmd.checkoutBranch repo_path "master") s1 t1 with
     | (Except.ok _, s2, t2) => (Except.ok (), s2, t2)
     | (Except.error (PyExn.calledProcessError _ _), s2, t2) => (Except.ok (), s2, t2)
     | (Except.error e, s2, t2) => (Except.error e, s2, t2))
  | (Except.error e, s1, t1) => (Except.error e, s1, t1)

/-- Lines 68-83 of `src/main.py`: list the local branches, delete the PR
branch when its name occurs in the listing (Python substring `in`), fetch
`pull/<n>/head` into the PR branch, check it out, and produce the absolute
path. -/
def afterDefault {σ : Type} (W : World σ) (repo_path pr_branch : String) (pr_number : Int)
    (s : σ) (t : List Cmd) : Except PyExn String × σ × List Cmd :=
  andThen (runCapturedCmd W (Cmd.listBranches repo_path) s t)
    (fun existing_branches s3 t3 =>
      andThen
        (if containsSub existing_branches pr_branch then
          runCheckedCmd W (Cmd.deleteBranch repo_path pr_branch) s3 t3
         else (Except.ok (), s3, t3))
        (fun _ s4 t4 =>
          andThen (runCheckedCmd W (Cmd.fetchPr repo_path pr_number pr_branch) s4 t4)
            (fun _ s5 t5 =>
              andThen (runCheckedCmd W (Cmd.checkoutBranch repo_path pr_branch) s5 t5)
                (fun _ s6 t6 =>
                  (Except.ok (osAbspath repo_path), s6, t6)))))

/-- The `try` block of `checkout_github_pr` (`src/main.py` lines 47-83):
conditional clone, default-branch resolution, and the PR-branch stage.
Returns the pending exception or the produced value, together with the final
world state and the trace of git commands issued. -/
def checkoutAttempt {σ : Type} (W : World σ) (repo_full_name : String) (pr_number : Int)
    (s0 : σ) : Except PyExn String × σ × List Cmd :=
  let dest_dir := W.getCwd s0
  let repo_name := lastSegment repo_full_name
  let repo_url := repoUrl repo_full_name
  let repo_path := pathJoin dest_dir repo_name
  let pr_branch := prBranch pr_number
  andThen
    (if W.pathExists s0 repo_path then (Except.ok (), s0, ([] : List Cmd))
     else runCheckedCmd W (Cmd.clone repo_url repo_path) s0 [])
    (fun _ s1 t1 =>
      andThen (tryMainMaster W repo_path s1 t1) (fun _ s2 t2 =>
        afterDefault W repo_path pr_branch pr_number s2 t2))

/-- The full tool function `checkout_github_pr` (`src/main.py` lines 22-93):
the `try` block followed by its two `except` handlers.  A
`CalledProcessError` yields `Error: Git operation failed: <stderr attr>`
(lines 85-88; the `hasattr` test is always true for a `CalledProcessError`,
so the `str(e)` fallback is dead); any other exception yields
`Error: Unexpected error: <str(e)>` (lines 89-93).  The returned triple pairs
the Python return value with the final world state and command trace. -/
def checkout_github_pr {σ : Type} (W : World σ) (repo_full_name : String)
    (pr_number : Int) (s0 : σ) : String × σ × List Cmd :=
  match checkoutAttempt W repo_full_name pr_number s0 with
  | (Except.ok result_path, s, t) => (result_path, s, t)
  | (Except.error (PyExn.calledProcessError _ stderr), s, t) =>
    ("Error: " ++ ("Git operation failed: " ++ stderrRepr stderr), s, t)
  | (Except.error (PyExn.otherError msg), s, t) =>
    ("Error: " ++ ("Unexpected error: " ++ msg), s, t)

/-- The `except` handler chain viewed as a partial conversion: the value the
matching handler returns, or `none` when no handler class matches and the
exception would propagate to the caller. -/
def handleException : PyExn → Option String
  | PyExn.calledProcessError _ stderr =>
    some ("Error: " ++ ("Git operation failed: " ++ stderrRepr stderr))
  | PyExn.otherError msg =>
    some ("Error: " ++ ("Unexpected error: " ++ msg))

/-- `checkout_github_pr` with exception propagation made observable: an
exception that no handler of the function matches would surface as an
`Except.error` to the caller. -/
def checkoutResult {σ : Type} (W : World σ) (repo_full_name : String)
    (pr_number : Int) (s0 : σ) : Except PyExn String × σ × List Cmd :=
  match checkoutAttempt W repo_full_name pr_number s0 with
  | (Except.ok p, s, t) => (Except.ok p, s, t)
  | (Except.error e, s, t) =>
    match handleException e with
    | some msg => (Except.ok msg, s, t)
    | none => (Except.error e, s, t)

/-! ## The stateless oracle world

A fixed response for each of the (at most) seven external operations a run
of `checkout_github_pr` performs.  The state is the environment itself and
never changes, which makes questions of response-independence directly
expressible as structure updates. -/

/-- One fixed response per step of the procedure. -/
structure OracleEnv where
  cwd : String
  pathExistsB : Bool
  cloneStep : StepR
  mainStep : StepR
  masterStep : StepR
  branchCap : CapR
  deleteStep : StepR
  fetchStep : StepR
  prStep : StepR
deriving DecidableEq, Repr

/-- Dispatch a checked git command to its fixed response.  The branch name
distinguishes the three `git checkout` sites: the engine only ever checks out
`main`, `master`, or the PR branch (whose name starts with `pr-`). -/
def oracleStep (e : OracleEnv) : Cmd → StepR
  | Cmd.clone _ _ => e.cloneStep
  | Cmd.checkoutBranch _ b =>
    if b = "main" then e.mainStep else if b = "master" then e.masterStep else e.prStep
  | Cmd.deleteBranch _ _ => e.deleteStep
  | Cmd.fetchPr _ _ _ => e.fetchStep
  | Cmd.listBranches _ => StepR.completed 0 ""

/-- Dispatch a captured git command; only `git branch` is ever run captured. -/
def oracleCap (e : OracleEnv) : Cmd → CapR
  | Cmd.listBranches _ => e.branchCap
  | _ => CapR.completed 0 ""

/-- The stateless world built from an `OracleEnv`. -/
def oracleWorld : World OracleEnv where
  getCwd e := e.cwd
  pathExists e _ := e.pathExistsB
  runChecked e c := (oracleStep e c, e)
  runCaptured e c := (oracleCap e c, e)

/-- An environment in which every external operation succeeds and the branch
listing is empty: the nominal fresh-clone run. -/
def allOkEnv : OracleEnv where
  cwd := "/work"
  pathExistsB := false
  cloneStep := StepR.completed 0 ""
  mainStep := StepR.completed 0 ""
  masterStep := StepR.completed 0 ""
  branchCap := CapR.completed 0 "* main\n"
  deleteStep := StepR.completed 0 ""
  fetchStep := StepR.completed 0 ""
  prStep := StepR.completed 0 ""

/-! ## The git-semantics world

An operational model of the git client for the five commands the engine
issues, acting on an explicit state of local working trees and remote
repositories.  The model follows the git documentation: `clone` creates a
working tree positioned on the remote's default branch; `checkout` succeeds
exactly when the named local branch exists; `branch` lists local branches,
marking the current one with `* `; `branch -D` force-deletes a branch but
refuses to delete the currently checked-out one; `fetch origin
pull/<n>/head:<b>` creates branch `b` at the PR head when `b` is absent, and
updates an existing `b` only when it already points at the head (the
non-forced refspec rejects any other update). -/

/-- A remote repository: its default branch (with the commit it points at)
and the head commit of each existing pull request. -/
structure Remote where
  defaultBranch : String
  defaultTip : Nat
  prHead : Int → Option Nat

/-- A local working tree: the URL it was cloned from, its local branches
(name and tip commit), and the currently checked-out branch. -/
structure Repo where
  origin : String
  branches : List (String × Nat)
  current : String
deriving Repr

/-- The names of the local branches. -/
def Repo.branchNames (r : Repo) : List String :=
  r.branches.map Prod.fst

/-- The filesystem-and-network state seen by the git client. -/
structure GitState where
  cwd : String
  remotes : String → Option Remote
  fs : List (String × Repo)

/-- Association lookup of the working tree at a path. -/
def findRepo : List (String × Repo) → String → Option Repo
  | [], _ => none
  | (q, rep) :: rest, p => if q = p then some rep else findRepo rest p

/-- Membership of a branch name in a name list. -/
def memB : List String → String → Bool
  | [], _ => false
  | x :: xs, b => if x = b then true else memB xs b

/-- Remove every branch of a given name (branch names are unique in git, so
at most one entry is removed). -/
def removeBranch : List (String × Nat) → String → List (String × Nat)
  | [], _ => []
  | x :: xs, b => if x.1 = b then removeBranch xs b else x :: removeBranch xs b

/-- The standard output of `git branch`: one line per local branch, the
current branch marked `* `, the others indented two spaces. -/
def renderBranches (cur : String) : List (String × Nat) → String
  | [] => ""
  | br :: rest => (if br.1 = cur then "* " else "  ") ++ br.1 ++ "\n" ++ renderBranches cur rest

/-- Record a working tree at a path (new entries shadow older ones; nothing
is ever removed from the filesystem map). -/
def GitState.setRepo (s : GitState) (p : String) (r : Repo) : GitState :=
  { s with fs := (p, r) :: s.fs }

/-- Is a working tree present at the path? -/
def GitState.hasRepo (s : GitState) (p : String) : Bool :=
  (findRepo s.fs p).isSome

/-- Operational semantics of one checked git command. -/
def gitRunChecked (s : GitState) : Cmd → StepR × GitState
  | Cmd.clone url dir =>
    (match s.remotes url with
     | none => (StepR.completed 128 "fatal: repository not found", s)
     | some rem =>
       (StepR.completed 0 "",
        s.setRepo dir
          { origin := url, branches := [(rem.defaultBranch, rem.defaultTip)],
            current := rem.defaultBranch }))
  | Cmd.checkoutBranch dir b =>
    (match findRepo s.fs dir with
     | none => (StepR.completed 128 "fatal: not a git repository", s)
     | some rep =>
       if memB rep.branchNames b then
         (StepR.completed 0 "", s.setRepo dir { rep with current := b })
       else (StepR.completed 1 "error: pathspec did not match", s))
  | Cmd.deleteBranch dir b =>
    (match findRepo s.fs dir with
     | none => (StepR.completed 128 "fatal: not a git repository", s)
     | some rep =>
       if b = rep.current then
         (StepR.completed 1 "error: cannot delete the checked out branch", s)
       else if memB rep.branchNames b then
         (StepR.completed 0 "", s.setRepo dir { rep with branches := removeBranch rep.branches b })
       else (StepR.completed 1 "error: branch not found", s))
  | Cmd.fetchPr dir n b =>
    (match findRepo s.fs dir with
     | none => (StepR.completed 128 "fatal: not a git repository", s)
     | some rep =>
       match s.remotes rep.origin with
       | none => (StepR.completed 128 "fatal: repository not found", s)
       | some rem =>
         match rem.prHead n with
         | none => (StepR.completed 128 "fatal: could not find remote ref", s)
         | some h =>
           if memB rep.branchNames b then
             (if rep.branches.lookup b = some h then (StepR.completed 0 "", s)
              else (StepR.completed 1 "rejected: non-fast-forward", s))
           else
             (StepR.completed 0 "", s.setRepo dir { rep with branches := (b, h) :: rep.branches }))
  | Cmd.listBranches _ => (StepR.completed 0 "", s)

/-- Operational semantics of one captured git command (only `git branch` is
ever run this way by the engine). -/
def gitRunCaptured (s : GitState) : Cmd → CapR × GitState
  | Cmd.listBranches dir =>
    (match findRepo s.fs dir with
     | none => (CapR.completed 128 "", s)
     | some rep => (CapR.completed 0 (renderBranches rep.current rep.branches), s))
  | _ => (CapR.completed 0 "", s)

/-- The world defined by the git-semantics model. -/
def gitWorld : World GitState where
  getCwd s := s.cwd
  pathExists s p := s.hasRepo p
  runChecked := gitRunChecked
  runCaptured := gitRunCaptured

/-- A remote hosting a single pull request. -/
def mkRemote (d : String) (tip : Nat) (pr : Int) (h : Nat) : Remote where
  defaultBranch := d
  defaultTip := tip
  prHead := fun m => if m = pr then some h else none

/-- A fresh state: nothing cloned yet, and the remote host serving exactly
the repository named by `repo_full_name`. -/
def initState (cwd repo_full_name : String) (rem : Remote) : GitState where
  cwd := cwd
  remotes := fun u => if u = repoUrl repo_full_name then some rem else none
  fs := []

/-- A working tree with branches `main` and `pr-12` only (no `pr-1`). -/
def c3Repo : Repo where
  origin := "https://github.com/acme/widget.git"
  branches := [("main", 10), ("pr-12", 11)]
  current := "main"

/-- A state holding `c3Repo` at the PR-checkout target path. -/
def c3State : GitState where
  cwd := "/srv"
  remotes := fun _ => none
  fs := [("/srv/widget", c3Repo)]

/-! ## Derived definitions used by the verification -/

/-- An exception is well-formed when, if it is a `CalledProcessError`, its
stderr attribute is `None` — the shape of every exception this program can
raise, since no checked call captures output. -/
def GoodErr (e : PyExn) : Prop :=
  ∀ rc st, e = PyExn.calledProcessError rc st → st = none

/-- An environment in which the clone exits nonzero with a diagnostic on its
(uncaptured) standard error — e.g. the remote repository does not exist. -/
def cloneFailEnv : OracleEnv :=
  { allOkEnv with pathExistsB := false,
                  cloneStep := StepR.completed 128 "fatal: repository not found" }

/-- Closed form of the default-branch resolution outcome in the stateless
oracle world: failure of the `main` checkout falls back to `master`, whose
failure is swallowed; only a non-`CalledProcessError` exception escapes. -/
def mainMasterExc (e : OracleEnv) : Except PyExn Unit :=
  match checkedToExcept e.mainStep with
  | Except.ok _ => Except.ok ()
  | Except.error (PyExn.calledProcessError _ _) =>
    (match checkedToExcept e.masterStep with
     | Except.ok _ => Except.ok ()
     | Except.error (PyExn.calledProcessError _ _) => Except.ok ()
     | Except.error e2 => Except.error e2)
  | Except.error e1 => Except.error e1

/-- Closed form of the commands issued by the fetch-and-checkout tail in the
stateless oracle world (a failing checked command is still traced: it ran). -/
def oracleFetchTailT (e : OracleEnv) (path pb : String) (n : Int) : List Cmd :=
  Cmd.fetchPr path n pb ::
    (match checkedToExcept e.fetchStep with
     | Except.error _ => []
     | Except.ok _ => [Cmd.checkoutBranch path pb])

/-- Closed form of the commands issued by the PR-branch stage in the
stateless oracle world. -/
def oracleListTailT (e : OracleEnv) (path pb : String) (n : Int) : List Cmd :=
  Cmd.listBranches path ::
    (match capToExcept e.branchCap with
     | Except.error _ => []
     | Except.ok out =>
       if containsSub out pb then
         Cmd.deleteBranch path pb ::
           (match checkedToExcept e.deleteStep with
            | Except.error _ => []
            | Except.ok _ => oracleFetchTailT e path pb n)
       else oracleFetchTailT e path pb n)

/-- Closed form of the commands issued by the default-branch resolution. -/
def oracleMMT (e : OracleEnv) (path : String) : List Cmd :=
  Cmd.checkoutBranch path "main" ::
    (match checkedToExcept e.mainStep with
     | Except.ok _ => []
     | Except.error (PyExn.calledProcessError _ _) => [Cmd.checkoutBranch path "master"]
     | Except.error _ => [])

/-- Closed form of the first component of the PR-branch stage in the
stateless oracle world. -/
def oracleAfterFst (e : OracleEnv) (path pb : String) : Except PyExn String :=
  (capToExcept e.branchCap).bind fun out =>
    (if containsSub out pb then checkedToExcept e.deleteStep
     else Except.ok ()).bind fun _ =>
      (checkedToExcept e.fetchStep).bind fun _ =>
        (checkedToExcept e.prStep).bind fun _ =>
          Except.ok (osAbspath path)

/-- Closed form of the first component of `checkoutAttempt` in the stateless
oracle world. -/
def oracleAttemptFst (e : OracleEnv) (r : String) (n : Int) : Except PyExn String :=
  (if e.pathExistsB then Except.ok () else checkedToExcept e.cloneStep).bind fun _ =>
    (mainMasterExc e).bind fun _ =>
      oracleAfterFst e (pathJoin e.cwd (lastSegment r)) (prBranch n)

/-- Closed form of the trace of git commands issued in the stateless oracle
world. -/
def oracleTrace (e : OracleEnv) (r : String) (n : Int) : List Cmd :=
  let path := pathJoin e.cwd (lastSegment r)
  match (if e.pathExistsB then Except.ok () else checkedToExcept e.cloneStep :
      Except PyExn Unit) with
  | Except.error _ => [Cmd.clone (repoUrl r) path]
  | Except.ok _ =>
    (if e.pathExistsB then [] else [Cmd.clone (repoUrl r) path]) ++
      oracleMMT e path ++
      (match mainMasterExc e with
       | Except.error _ => []
       | Except.ok _ => oracleListTailT e path (prBranch n) n)

/-! ## Characterizations of the string helpers -/

theorem isPrefixB_iff : ∀ (n h : List Char), isPrefixB n h = true ↔ n <+: h
  | [], h => by simp [isPrefixB, List.nil_prefix]
  | a :: as, [] => by simp [isPrefixB, List.prefix_nil]
  | a :: as, b :: bs => by
    simp only [isPrefixB]
    by_cases hab : a = b
    · simp [hab, isPrefixB_iff as bs, List.cons_prefix_cons]
    · simp [hab, List.cons_prefix_cons]

theorem isInfixB_iff : ∀ (n h : List Char), isInfixB n h = true ↔ n <:+: h
  | n, [] => by
    cases n with
    | nil => simp [isInfixB, isPrefixB]
    | cons a as => simp [isInfixB, isPrefixB, List.infix_nil]
  | n, c :: t => by
    rw [isInfixB, Bool.or_eq_true, isPrefixB_iff, isInfixB_iff n t, ← List.infix_cons_iff]

theorem containsSub_iff (hay needle : String) :
    containsSub hay needle = true ↔ needle.data <:+: hay.data :=
  isInfixB_iff needle.data hay.data

/-- A substring test fails whenever some character of the needle does not
occur in the haystack at all. -/
theorem containsSub_eq_false_of_char (hay needle : String) (c : Char)
    (hc : c ∈ needle.data) (hh : c ∉ hay.data) : containsSub hay needle = false := by
  cases h : containsSub hay needle with
  | false => rfl
  | true => exact absurd (((containsSub_iff hay needle).mp h).subset hc) hh

theorem prBranch_data (n : Int) :
    (prBranch n).data = 'p' :: 'r' :: '-' :: (toString n).data := by
  show ("pr-" ++ toString n).data = _
  rw [String.data_append]
  rfl

theorem p_mem_prBranch (n : Int) : 'p' ∈ (prBranch n).data := by
  rw [prBranch_data]
  exact List.mem_cons_self 'p' _

theorem prBranch_ne_main (n : Int) : prBranch n ≠ "main" := by
  intro h
  have hd := congrArg String.data h
  rw [prBranch_data, show "main".data = ['m', 'a', 'i', 'n'] from rfl] at hd
  injection hd with h1 _
  exact absurd h1 (by decide)

theorem prBranch_ne_master (n : Int) : prBranch n ≠ "master" := by
  intro h
  have hd := congrArg String.data h
  rw [prBranch_data, show "master".data = ['m', 'a', 's', 't', 'e', 'r'] from rfl] at hd
  injection hd with h1 _
  exact absurd h1 (by decide)

theorem splitChars_eq_of_not_mem (sep : Char) :
    ∀ (l : List Char), sep ∉ l → splitChars sep l = [l]
  | [], _ => rfl
  | c :: cs, h => by
    have hc : ¬c = sep := fun hq => h (hq ▸ List.mem_cons_self c cs)
    have hcs : sep ∉ cs := fun hq => h (List.mem_cons_of_mem c hq)
    simp [splitChars, hc, splitChars_eq_of_not_mem sep cs hcs]

/-- With no separator present, Python `split` returns the whole string as the
single (hence last) segment. -/
theorem lastSegment_of_no_slash (r : String) (h : '/' ∉ r.data) : lastSegment r = r := by
  unfold lastSegment pySplit
  rw [splitChars_eq_of_not_mem '/' r.data h]
  rfl

/-- An absolute working directory produces an absolute joined path. -/
theorem abs_pathJoin (cwd x : String) (h : isAbsolutePath cwd) :
    isAbsolutePath (osAbspath (pathJoin cwd x)) := by
  obtain ⟨c, hc⟩ := h
  refine ⟨c ++ "/" ++ x, ?_⟩
  simp only [osAbspath, pathJoin, hc, String.append_assoc]

/-! ## Shape lemmas for the engine -/

theorem andThen_ok {σ α β : Type} {x : Except PyExn α × σ × List Cmd}
    {f : α → σ → List Cmd → Except PyExn β × σ × List Cmd} {b : β} {s : σ} {t : List Cmd}
    (h : andThen x f = (Except.ok b, s, t)) :
    ∃ a s1 t1, x = (Except.ok a, s1, t1) ∧ f a s1 t1 = (Except.ok b, s, t) := by
  rcases x with ⟨ex, sx, tx⟩
  cases ex with
  | ok a => exact ⟨a, sx, tx, rfl, h⟩
  | error e => simp [andThen] at h

/-- The only value the `try` block can produce is the absolute path of the
working tree computed from the working directory and the last segment of the
repository name. -/
theorem checkoutAttempt_ok_path {σ : Type} (W : World σ) (r : String) (n : Int) (s0 : σ)
    (p : String) (s : σ) (t : List Cmd)
    (h : checkoutAttempt W r n s0 = (Except.ok p, s, t)) :
    p = osAbspath (pathJoin (W.getCwd s0) (lastSegment r)) := by
  simp only [checkoutAttempt, afterDefault] at h
  obtain ⟨a1, s1, t1, hx1, h⟩ := andThen_ok h
  obtain ⟨a2, s2, t2, hx2, h⟩ := andThen_ok h
  obtain ⟨a3, s3, t3, hx3, h⟩ := andThen_ok h
  obtain ⟨a4, s4, t4, hx4, h⟩ := andThen_ok h
  obtain ⟨a5, s5, t5, hx5, h⟩ := andThen_ok h
  obtain ⟨a6, s6, t6, hx6, h⟩ := andThen_ok h
  simp only [Prod.mk.injEq, Except.ok.injEq] at h
  exact h.1.symm

/-- The handler chain converts every pending exception: the instrumented
variant always returns normally, with exactly the string the real function
returns. -/
theorem checkoutResult_eq_ok {σ : Type} (W : World σ) (r : String) (n : Int) (s0 : σ) :
    (checkoutResult W r n s0).1 = Except.ok (checkout_github_pr W r n s0).1 := by
  unfold checkoutResult checkout_github_pr
  rcases h : checkoutAttempt W r n s0 with ⟨ex, s, t⟩
  cases ex with
  | ok p => simp
  | error e => cases e <;> simp [handleException]

/-- A pending exception is reported as an `"Error: "`-prefixed string. -/
theorem checkout_error_shape {σ : Type} (W : World σ) (r : String) (n : Int) (s0 : σ)
    (e : PyExn) (s : σ) (t : List Cmd)
    (h : checkoutAttempt W r n s0 = (Except.error e, s, t)) :
    isErrorString (checkout_github_pr W r n s0).1 := by
  unfold checkout_github_pr
  rw [h]
  cases e with
  | calledProcessError rc st => exact ⟨"Git operation failed: " ++ stderrRepr st, rfl⟩
  | otherError m => exact ⟨"Unexpected error: " ++ m, rfl⟩

/-- Every return value is the computed absolute path or an error report. -/
theorem checkout_shape {σ : Type} (W : World σ) (r : String) (n : Int) (s0 : σ) :
    (checkout_github_pr W r n s0).1 = osAbspath (pathJoin (W.getCwd s0) (lastSegment r)) ∨
      isErrorString (checkout_github_pr W r n s0).1 := by
  rcases h : checkoutAttempt W r n s0 with ⟨ex, s, t⟩
  cases ex with
  | ok p =>
    left
    have hp := checkoutAttempt_ok_path W r n s0 p s t h
    unfold checkout_github_pr
    rw [h, ← hp]
  | error e => exact Or.inr (checkout_error_shape W r n s0 e s t h)

/-! ## Claim theorems: result shape and exception safety -/

/-- C1: for every input, the value `checkout_github_pr` returns is a plain
string that is either an absolute filesystem path (on success, the working
directory being absolute as `os.getcwd` guarantees) or a string beginning
with `"Error: "` (on any failure); no return value falls outside these two
shapes. -/
theorem spec_c1_result_shape {σ : Type} (W : World σ) (r : String) (n : Int) (s0 : σ)
    (h : isAbsolutePath (W.getCwd s0)) :
    isAbsolutePath (checkout_github_pr W r n s0).1 ∨
      isErrorString (checkout_github_pr W r n s0).1 := by
  rcases checkout_shape W r n s0 with hp | he
  · left
    rw [hp]
    exact abs_pathJoin _ _ h
  · exact Or.inr he

theorem spec_c1_result_shape_witness :
    isAbsolutePath (oracleWorld.getCwd allOkEnv) ∧
      (isAbsolutePath (checkout_github_pr oracleWorld "octocat/hello" 3 allOkEnv).1 ∨
        isErrorString (checkout_github_pr oracleWorld "octocat/hello" 3 allOkEnv).1) :=
  ⟨⟨"work", rfl⟩, spec_c1_result_shape oracleWorld "octocat/hello" 3 allOkEnv ⟨"work", rfl⟩⟩

/-- C2: `checkout_github_pr` never lets an exception propagate: the
instrumented variant — in which an exception unmatched by the `except` chain
would surface as an `Except.error` — always returns `Except.ok` with exactly
the string the function returns, and whenever the `try` block ends with a
pending exception the returned string is `"Error: "`-tagged. -/
theorem spec_c2_no_exception_escape {σ : Type} (W : World σ) (r : String) (n : Int) (s0 : σ) :
    (checkoutResult W r n s0).1 = Except.ok (checkout_github_pr W r n s0).1 ∧
      (∀ e s t, checkoutAttempt W r n s0 = (Except.error e, s, t) →
        isErrorString (checkout_github_pr W r n s0).1) :=
  ⟨checkoutResult_eq_ok W r n s0, fun e s t h => checkout_error_shape W r n s0 e s t h⟩

theorem spec_c2_no_exception_escape_witness :
    checkoutAttempt oracleWorld "octocat/absent" 1 cloneFailEnv =
        (Except.error (PyExn.calledProcessError 128 none), cloneFailEnv,
          [Cmd.clone "https://github.com/octocat/absent.git" "/work/absent"]) ∧
      isErrorString (checkout_github_pr oracleWorld "octocat/absent" 1 cloneFailEnv).1 :=
  ⟨rfl,
   (spec_c2_no_exception_escape oracleWorld "octocat/absent" 1 cloneFailEnv).2
     (PyExn.calledProcessError 128 none) cloneFailEnv
     [Cmd.clone "https://github.com/octocat/absent.git" "/work/absent"] rfl⟩

/-- C5 (divergence witness): a clone that exits nonzero with the diagnostic
`fatal: repository not found` on standard error makes `checkout_github_pr`
return the fixed string `Error: Git operation failed: None` — the
`CalledProcessError.stderr` attribute is `None` because none of the checked
`subprocess.run` calls pass `capture_output` — so the returned error string
does not embed the command's standard-error text. -/
theorem spec_c5_stderr_not_embedded :
    (checkout_github_pr oracleWorld "octocat/absent" 1 cloneFailEnv).1 =
        "Error: Git operation failed: None" ∧
      containsSub (checkout_github_pr oracleWorld "octocat/absent" 1 cloneFailEnv).1
          "fatal: repository not found" = false ∧
      containsSub (checkout_github_pr oracleWorld "octocat/absent" 1 cloneFailEnv).1
          "None" = true := by
  refine ⟨rfl, ?_, ?_⟩ <;> decide

theorem goodErr_other (m : String) : GoodErr (PyExn.otherError m) := by
  intro rc st h
  exact absurd h (by simp)

theorem andThen_error {σ α β : Type} {x : Except PyExn α × σ × List Cmd}
    {f : α → σ → List Cmd → Except PyExn β × σ × List Cmd} {e : PyExn} {s : σ} {t : List Cmd}
    (h : andThen x f = (Except.error e, s, t)) :
    x = (Except.error e, s, t) ∨
      ∃ a s1 t1, x = (Except.ok a, s1, t1) ∧ f a s1 t1 = (Except.error e, s, t) := by
  rcases x with ⟨ex, sx, tx⟩
  cases ex with
  | ok a =>
    simp only [andThen] at h
    exact Or.inr ⟨a, sx, tx, rfl, h⟩
  | error e0 =>
    simp only [andThen, Prod.mk.injEq, Except.error.injEq] at h
    obtain ⟨he, hs, ht⟩ := h
    exact Or.inl (by rw [he, hs, ht])

theorem checkedToExcept_goodErr {r0 : StepR} {e : PyExn}
    (h : checkedToExcept r0 = Except.error e) : GoodErr e := by
  cases r0 with
  | completed rc0 txt =>
    by_cases hrc : rc0 = 0
    · simp [checkedToExcept, hrc] at h
    · simp only [checkedToExcept, if_neg hrc, Except.error.injEq] at h
      intro rc st he
      rw [← h] at he
      injection he with _ h2
      exact h2.symm
  | raised m =>
    simp only [checkedToExcept, Except.error.injEq] at h
    rw [← h]
    exact goodErr_other m

theorem runCheckedCmd_goodErr {σ : Type} {W : World σ} {c : Cmd} {s : σ} {t : List Cmd}
    {e : PyExn} {s1 : σ} {t1 : List Cmd}
    (h : runCheckedCmd W c s t = (Except.error e, s1, t1)) : GoodErr e := by
  unfold runCheckedCmd at h
  injection h with h1 _
  exact checkedToExcept_goodErr h1

theorem runCapturedCmd_goodErr {σ : Type} {W : World σ} {c : Cmd} {s : σ} {t : List Cmd}
    {e : PyExn} {s1 : σ} {t1 : List Cmd}
    (h : runCapturedCmd W c s t = (Except.error e, s1, t1)) : GoodErr e := by
  unfold runCapturedCmd at h
  injection h with h1 _
  cases hr : (W.runCaptured s c).1 with
  | completed rc out => rw [hr] at h1; exact absurd h1 (by simp [capToExcept])
  | raised m =>
    rw [hr] at h1
    simp only [capToExcept, Except.error.injEq] at h1
    rw [← h1]
    exact goodErr_other m

theorem tryMainMaster_goodErr {σ : Type} {W : World σ} {p : String} {s : σ} {t : List Cmd}
    {e : PyExn} {s1 : σ} {t1 : List Cmd}
    (h : tryMainMaster W p s t = (Except.error e, s1, t1)) : GoodErr e := by
  unfold tryMainMaster at h
  rcases h1 : runCheckedCmd W (Cmd.checkoutBranch p "main") s t with ⟨ex1, sa, ta⟩
  rw [h1] at h
  cases ex1 with
  | ok _ => exact absurd h (by simp)
  | error e1 =>
    cases e1 with
    | calledProcessError rc0 st0 =>
      simp only [] at h
      rcases h2 : runCheckedCmd W (Cmd.checkoutBranch p "master") sa ta with ⟨ex2, sb, tb⟩
      rw [h2] at h
      cases ex2 with
      | ok _ => exact absurd h (by simp)
      | error e2 =>
        cases e2 with
        | calledProcessError rc1 st1 => exact absurd h (by simp)
        | otherError m =>
          simp only [] at h
          injection h with hh _
          injection hh with hh
          rw [← hh]
          exact goodErr_other m
    | otherError m =>
      simp only [] at h
      injection h with hh _
      injection hh with hh
      rw [← hh]
      exact goodErr_other m

/-- Every exception pending at the end of the `try` block is well-formed:
in particular any `CalledProcessError` carries a `None` stderr attribute,
because none of the checked `subprocess.run` calls capture standard error. -/
theorem checkoutAttempt_goodErr {σ : Type} (W : World σ) (r : String) (n : Int)
    (s0 : σ) (e : PyExn) (s : σ) (t : List Cmd)
    (h : checkoutAttempt W r n s0 = (Except.error e, s, t)) : GoodErr e := by
  simp only [checkoutAttempt, afterDefault] at h
  rcases andThen_error h with h | ⟨a1, s1, t1, hx1, h⟩
  · cases hb : W.pathExists s0 (pathJoin (W.getCwd s0) (lastSegment r)) with
    | true => rw [hb] at h; exact absurd h (by simp)
    | false => rw [hb] at h; exact runCheckedCmd_goodErr h
  · rcases andThen_error h with h | ⟨a2, s2, t2, hx2, h⟩
    · exact tryMainMaster_goodErr h
    · rcases andThen_error h with h | ⟨a3, s3, t3, hx3, h⟩
      · exact runCapturedCmd_goodErr h
      · rcases andThen_error h with h | ⟨a4, s4, t4, hx4, h⟩
        · cases hc : containsSub a3 (prBranch n) with
          | true => rw [hc] at h; exact runCheckedCmd_goodErr h
          | false => rw [hc] at h; exact absurd h (by simp)
        · rcases andThen_error h with h | ⟨a5, s5, t5, hx5, h⟩
          · exact runCheckedCmd_goodErr h
          · rcases andThen_error h with h | ⟨a6, s6, t6, hx6, h⟩
            · exact runCheckedCmd_goodErr h
            · exact absurd h (by simp)

/-- Any `CalledProcessError` pending at the end of the `try` block carries a
`None` stderr attribute. -/
theorem checkoutAttempt_cpe_stderr_none {σ : Type} (W : World σ) (r : String) (n : Int)
    (s0 : σ) (rc : Int) (st : Option String) (s : σ) (t : List Cmd)
    (h : checkoutAttempt W r n s0 = (Except.error (PyExn.calledProcessError rc st), s, t)) :
    st = none :=
  checkoutAttempt_goodErr W r n s0 _ s t h rc st rfl

/-- Consequently every git-failure return value is the one fixed string. -/
theorem checkout_cpe_message {σ : Type} (W : World σ) (r : String) (n : Int) (s0 : σ)
    (rc : Int) (st : Option String) (s : σ) (t : List Cmd)
    (h : checkoutAttempt W r n s0 = (Except.error (PyExn.calledProcessError rc st), s, t)) :
    (checkout_github_pr W r n s0).1 = "Error: Git operation failed: None" := by
  have hst := checkoutAttempt_cpe_stderr_none W r n s0 rc st s t h
  subst hst
  unfold checkout_github_pr
  rw [h]
  rfl

/-! ## Claim theorems: success-path value -/

/-- C8: for a fixed working directory, the success-path return value is
determined solely by the last slash-separated segment of the repository name
and is independent of the PR number: two successful invocations agreeing on
those return equal absolute paths. -/
theorem spec_c8_path_independent_of_pr {σ1 σ2 : Type} (W1 : World σ1) (W2 : World σ2)
    (r1 r2 : String) (n1 n2 : Int) (s01 : σ1) (s02 : σ2) (p1 p2 : String)
    (st1 : σ1) (st2 : σ2) (t1 t2 : List Cmd)
    (hcwd : W1.getCwd s01 = W2.getCwd s02) (hseg : lastSegment r1 = lastSegment r2)
    (h1 : checkoutAttempt W1 r1 n1 s01 = (Except.ok p1, st1, t1))
    (h2 : checkoutAttempt W2 r2 n2 s02 = (Except.ok p2, st2, t2)) :
    p1 = p2 ∧ (checkout_github_pr W1 r1 n1 s01).1 = p1 := by
  have e1 := checkoutAttempt_ok_path W1 r1 n1 s01 p1 st1 t1 h1
  have e2 := checkoutAttempt_ok_path W2 r2 n2 s02 p2 st2 t2 h2
  constructor
  · rw [e1, e2, hcwd, hseg]
  · unfold checkout_github_pr
    rw [h1]

theorem spec_c8_path_independent_of_pr_witness :
    (checkout_github_pr oracleWorld "octocat/hello" 3 allOkEnv).1 = "/work/hello" ∧
      (checkout_github_pr oracleWorld "team/hello" 44 allOkEnv).1 = "/work/hello" ∧
      "/work/hello" = "/work/hello" := by
  have h := spec_c8_path_independent_of_pr oracleWorld oracleWorld "octocat/hello" "team/hello"
    3 44 allOkEnv allOkEnv "/work/hello" "/work/hello" allOkEnv allOkEnv
    [Cmd.clone "https://github.com/octocat/hello.git" "/work/hello",
     Cmd.checkoutBranch "/work/hello" "main", Cmd.listBranches "/work/hello",
     Cmd.fetchPr "/work/hello" 3 "pr-3", Cmd.checkoutBranch "/work/hello" "pr-3"]
    [Cmd.clone "https://github.com/team/hello.git" "/work/hello",
     Cmd.checkoutBranch "/work/hello" "main", Cmd.listBranches "/work/hello",
     Cmd.fetchPr "/work/hello" 44 "pr-44", Cmd.checkoutBranch "/work/hello" "pr-44"]
    rfl rfl rfl rfl
  exact ⟨h.2, by rfl, h.1⟩

/-- C9: a repository name with no `/` is not rejected: `split('/')` yields
the whole string as the final segment, the local directory name equals the
name itself, the remote URL is built from the full name, no exception
escapes, and the outcome is the usual path-or-error result. -/
theorem spec_c9_no_slash {σ : Type} (W : World σ) (r : String) (n : Int) (s0 : σ)
    (h : '/' ∉ r.data) :
    lastSegment r = r ∧
      repoUrl r = "https://github.com/" ++ r ++ ".git" ∧
      (checkoutResult W r n s0).1 = Except.ok (checkout_github_pr W r n s0).1 ∧
      ((checkout_github_pr W r n s0).1 = osAbspath (pathJoin (W.getCwd s0) r) ∨
        isErrorString (checkout_github_pr W r n s0).1) := by
  have hseg := lastSegment_of_no_slash r h
  refine ⟨hseg, rfl, checkoutResult_eq_ok W r n s0, ?_⟩
  have hs := checkout_shape W r n s0
  rw [hseg] at hs
  exact hs

theorem spec_c9_no_slash_witness :
    '/' ∉ "hello".data ∧
      (lastSegment "hello" = "hello" ∧
        repoUrl "hello" = "https://github.com/" ++ "hello" ++ ".git" ∧
        (checkoutResult oracleWorld "hello" 3 allOkEnv).1 =
          Except.ok (checkout_github_pr oracleWorld "hello" 3 allOkEnv).1 ∧
        ((checkout_github_pr oracleWorld "hello" 3 allOkEnv).1 =
            osAbspath (pathJoin (oracleWorld.getCwd allOkEnv) "hello") ∨
          isErrorString (checkout_github_pr oracleWorld "hello" 3 allOkEnv).1)) :=
  ⟨by decide, spec_c9_no_slash oracleWorld "hello" 3 allOkEnv (by decide)⟩

/-! ## Closed-form characterization of the oracle-world run -/

theorem oracleWorld_pathExists (e : OracleEnv) (p : String) :
    oracleWorld.pathExists e p = e.pathExistsB := rfl

theorem oracleWorld_getCwd (e : OracleEnv) : oracleWorld.getCwd e = e.cwd := rfl

theorem oracleWorld_runChecked (e : OracleEnv) (c : Cmd) :
    oracleWorld.runChecked e c = (oracleStep e c, e) := rfl

theorem oracleWorld_runCaptured (e : OracleEnv) (c : Cmd) :
    oracleWorld.runCaptured e c = (oracleCap e c, e) := rfl

theorem oracle_tryMainMaster_spec (e : OracleEnv) (path : String) (t : List Cmd) :
    tryMainMaster oracleWorld path e t = (mainMasterExc e, e, t ++ oracleMMT e path) := by
  unfold tryMainMaster mainMasterExc oracleMMT runCheckedCmd oracleWorld oracleStep
  cases hmm0 : checkedToExcept e.mainStep with
  | ok u => simp [hmm0]
  | error e1 =>
    cases e1 with
    | calledProcessError rc st =>
      cases hmt : checkedToExcept e.masterStep with
      | ok u => simp [hmm0, hmt]
      | error e2 => cases e2 <;> simp [hmm0, hmt]
    | otherError m => simp [hmm0]

theorem oracle_afterDefault_spec (e : OracleEnv) (path pb : String) (n : Int)
    (hm : pb ≠ "main") (hms : pb ≠ "master") (t : List Cmd) :
    afterDefault oracleWorld path pb n e t =
      (oracleAfterFst e path pb, e, t ++ oracleListTailT e path pb n) := by
  unfold afterDefault oracleAfterFst oracleListTailT oracleFetchTailT runCapturedCmd
    runCheckedCmd oracleWorld oracleCap oracleStep
  cases hl : capToExcept e.branchCap with
  | error e0 => simp [andThen, hl, Except.bind]
  | ok out =>
    cases hc : containsSub out pb with
    | false =>
      cases hft : checkedToExcept e.fetchStep with
      | error e0 => simp [andThen, hl, hc, hft, hm, hms, Except.bind]
      | ok u2 =>
        cases hpr : checkedToExcept e.prStep with
        | error e0 => simp [andThen, hl, hc, hft, hpr, hm, hms, Except.bind]
        | ok u3 => simp [andThen, hl, hc, hft, hpr, hm, hms, Except.bind]
    | true =>
      cases hdel : checkedToExcept e.deleteStep with
      | error e0 => simp [andThen, hl, hc, hdel, hm, hms, Except.bind]
      | ok u =>
        cases hft : checkedToExcept e.fetchStep with
        | error e0 => simp [andThen, hl, hc, hdel, hft, hm, hms, Except.bind]
        | ok u2 =>
          cases hpr : checkedToExcept e.prStep with
          | error e0 => simp [andThen, hl, hc, hdel, hft, hpr, hm, hms, Except.bind]
          | ok u3 => simp [andThen, hl, hc, hdel, hft, hpr, hm, hms, Except.bind]

/-- Full characterization of a run in the stateless oracle world: the result
is the closed-form outcome, the state is unchanged, and the issued commands
are the closed-form trace. -/
theorem oracle_attempt_spec (e : OracleEnv) (r : String) (n : Int) :
    checkoutAttempt oracleWorld r n e = (oracleAttemptFst e r n, e, oracleTrace e r n) := by
  have hm := prBranch_ne_main n
  have hms := prBranch_ne_master n
  unfold checkoutAttempt oracleAttemptFst oracleTrace
  cases hpe : e.pathExistsB with
  | true =>
    simp only [oracleWorld_pathExists, oracleWorld_getCwd, hpe, ite_true, andThen]
    rw [oracle_tryMainMaster_spec]
    cases hmm2 : mainMasterExc e with
    | error e1 => simp [andThen, hmm2, Except.bind]
    | ok u =>
      simp only [andThen]
      rw [oracle_afterDefault_spec e _ _ n hm hms]
      simp [hmm2, Except.bind]
  | false =>
    simp only [oracleWorld_pathExists, oracleWorld_getCwd, oracleWorld_runChecked, hpe,
      ite_false, andThen, runCheckedCmd, oracleStep]
    cases hcl : checkedToExcept e.cloneStep with
    | error e1 => simp [hcl, Except.bind]
    | ok u =>
      simp only [Bool.false_eq_true, ite_false]
      rw [oracle_tryMainMaster_spec]
      cases hmm2 : mainMasterExc e with
      | error e1 => simp [andThen, hmm2, Except.bind]
      | ok u2 =>
        simp only [andThen]
        rw [oracle_afterDefault_spec e _ _ n hm hms]
        simp [hmm2, Except.bind]

/-- The full function in the oracle world: handler-converted closed-form
outcome, unchanged environment, closed-form trace. -/
theorem oracle_checkout_spec (e : OracleEnv) (r : String) (n : Int) :
    checkout_github_pr oracleWorld r n e =
      ((match oracleAttemptFst e r n with
        | Except.ok p => p
        | Except.error (PyExn.calledProcessError _ st) =>
          "Error: " ++ ("Git operation failed: " ++ stderrRepr st)
        | Except.error (PyExn.otherError m) => "Error: " ++ ("Unexpected error: " ++ m)),
       e, oracleTrace e r n) := by
  unfold checkout_github_pr
  rw [oracle_attempt_spec]
  cases hf : oracleAttemptFst e r n with
  | ok p => rfl
  | error ex => cases ex <;> rfl

theorem oracle_checkout_trace (e : OracleEnv) (r : String) (n : Int) :
    (checkout_github_pr oracleWorld r n e).2.2 = oracleTrace e r n := by
  rw [oracle_checkout_spec]

/-- Whatever the exit codes of the `main` and `master` checkouts, completed
processes leave the default-branch resolution in the non-exceptional state. -/
theorem mainMasterExc_completed (e : OracleEnv) (rc rc' : Int) (x x' : String) :
    mainMasterExc
        { e with mainStep := StepR.completed rc x, masterStep := StepR.completed rc' x' } =
      Except.ok () := by
  unfold mainMasterExc checkedToExcept
  by_cases h1 : rc = 0 <;> by_cases h2 : rc' = 0 <;> simp [h1, h2]

theorem oracleMMT_mem (e : OracleEnv) (path : String) (c : Cmd) (h : c ∈ oracleMMT e path) :
    c = Cmd.checkoutBranch path "main" ∨ c = Cmd.checkoutBranch path "master" := by
  unfold oracleMMT at h
  cases hmm0 : checkedToExcept e.mainStep with
  | ok u =>
    rw [hmm0] at h
    simp at h
    exact Or.inl h
  | error e1 =>
    cases e1 with
    | calledProcessError rc st =>
      rw [hmm0] at h
      simp at h
      tauto
    | otherError m =>
      rw [hmm0] at h
      simp at h
      exact Or.inl h

theorem not_delete_mem_oracleMMT (e : OracleEnv) (path p b : String) :
    Cmd.deleteBranch p b ∉ oracleMMT e path := by
  intro h
  rcases oracleMMT_mem e path _ h with h1 | h1 <;> simp at h1

theorem not_list_mem_oracleMMT (e : OracleEnv) (path p : String) :
    Cmd.listBranches p ∉ oracleMMT e path := by
  intro h
  rcases oracleMMT_mem e path _ h with h1 | h1 <;> simp at h1

theorem not_delete_mem_fetchTail (e : OracleEnv) (path pb : String) (n : Int) (p b : String) :
    Cmd.deleteBranch p b ∉ oracleFetchTailT e path pb n := by
  cases hft : checkedToExcept e.fetchStep <;> simp [oracleFetchTailT, hft]

theorem not_list_mem_fetchTail (e : OracleEnv) (path pb : String) (n : Int) (p : String) :
    Cmd.listBranches p ∉ oracleFetchTailT e path pb n := by
  cases hft : checkedToExcept e.fetchStep <;> simp [oracleFetchTailT, hft]

/-- In the oracle world with a completed branch listing, the forced deletion
of the PR branch is attempted exactly when the run reaches the listing and
the branch name occurs as a substring of the captured listing text. -/
theorem oracleTrace_delete_mem_iff (e : OracleEnv) (r : String) (n : Int) (rc : Int)
    (out : String) (hbc : e.branchCap = CapR.completed rc out) :
    (Cmd.deleteBranch (pathJoin e.cwd (lastSegment r)) (prBranch n) ∈ oracleTrace e r n ↔
      Cmd.listBranches (pathJoin e.cwd (lastSegment r)) ∈ oracleTrace e r n ∧
        containsSub out (prBranch n) = true) := by
  unfold oracleTrace oracleListTailT
  rw [hbc]
  cases hpe : e.pathExistsB with
  | true =>
    cases hmm2 : mainMasterExc e with
    | error e1 =>
      simp [not_delete_mem_oracleMMT, not_list_mem_oracleMMT]
    | ok u =>
      cases hc : containsSub out (prBranch n) with
      | true =>
        simp [capToExcept, hc, not_delete_mem_oracleMMT, not_list_mem_oracleMMT]
      | false =>
        simp [capToExcept, hc, not_delete_mem_oracleMMT, not_list_mem_oracleMMT,
          not_delete_mem_fetchTail, not_list_mem_fetchTail]
  | false =>
    cases hcl : checkedToExcept e.cloneStep with
    | error e1 => simp
    | ok u =>
      cases hmm2 : mainMasterExc e with
      | error e1 =>
        simp [not_delete_mem_oracleMMT, not_list_mem_oracleMMT]
      | ok u2 =>
        cases hc : containsSub out (prBranch n) with
        | true =>
          simp [capToExcept, hc, not_delete_mem_oracleMMT, not_list_mem_oracleMMT]
        | false =>
          simp [capToExcept, hc, not_delete_mem_oracleMMT, not_list_mem_oracleMMT,
            not_delete_mem_fetchTail, not_list_mem_fetchTail]

theorem containsSub_empty_prBranch (n : Int) : containsSub "" (prBranch n) = false :=
  containsSub_eq_false_of_char "" (prBranch n) 'p' (p_mem_prBranch n) (by decide)

/-! ## Claim theorems: default-branch resolution and branch listing -/

/-- C6: failure of the default-branch resolution never aborts the run — with
completed `main`/`master` checkouts the returned value does not depend on
their exit codes — and a repository whose default branch is `master`, or one
with neither `main` nor `master`, still completes successfully with the PR
path. -/
theorem spec_c6_default_branch_nonfatal :
    (∀ (e : OracleEnv) (r : String) (n : Int) (rc1 rc2 rc1' rc2' : Int) (x1 x2 x1' x2' : String),
      (checkout_github_pr oracleWorld r n
          { e with mainStep := StepR.completed rc1 x1,
                   masterStep := StepR.completed rc2 x2 }).1 =
        (checkout_github_pr oracleWorld r n
          { e with mainStep := StepR.completed rc1' x1',
                   masterStep := StepR.completed rc2' x2' }).1) ∧
      (checkout_github_pr gitWorld "acme/widget" 7
          (initState "/w" "acme/widget" (mkRemote "master" 5 7 99))).1 = "/w/widget" ∧
      (checkout_github_pr gitWorld "acme/widget" 7
          (initState "/w" "acme/widget" (mkRemote "trunk" 5 7 99))).1 = "/w/widget" := by
  refine ⟨?_, by decide, by decide⟩
  intro e r n rc1 rc2 rc1' rc2' x1 x2 x1' x2'
  rw [oracle_checkout_spec, oracle_checkout_spec]
  have h1 :
      oracleAttemptFst
          { e with mainStep := StepR.completed rc1 x1,
                   masterStep := StepR.completed rc2 x2 } r n =
        oracleAttemptFst
          { e with mainStep := StepR.completed rc1' x1',
                   masterStep := StepR.completed rc2' x2' } r n := by
    simp [oracleAttemptFst, oracleAfterFst, mainMasterExc_completed]
  simp only [h1]

/-- C10: the branch-listing subprocess is run without failure checking: its
exit code influences neither the returned value nor the commands issued, and
when it fails producing empty output the deletion is never attempted. -/
theorem spec_c10_branch_list_unchecked :
    (∀ (e : OracleEnv) (r : String) (n : Int) (rc rc' : Int) (out : String),
      (checkout_github_pr oracleWorld r n { e with branchCap := CapR.completed rc out }).1 =
          (checkout_github_pr oracleWorld r n { e with branchCap := CapR.completed rc' out }).1 ∧
        (checkout_github_pr oracleWorld r n { e with branchCap := CapR.completed rc out }).2.2 =
          (checkout_github_pr oracleWorld r n { e with branchCap := CapR.completed rc' out }).2.2) ∧
      (∀ (e : OracleEnv) (r : String) (n : Int) (rc : Int),
        Cmd.deleteBranch (pathJoin e.cwd (lastSegment r)) (prBranch n) ∉
          (checkout_github_pr oracleWorld r n { e with branchCap := CapR.completed rc "" }).2.2) := by
  constructor
  · intro e r n rc rc' out
    rw [oracle_checkout_spec, oracle_checkout_spec]
    have hfst :
        oracleAttemptFst { e with branchCap := CapR.completed rc out } r n =
          oracleAttemptFst { e with branchCap := CapR.completed rc' out } r n := by
      simp [oracleAttemptFst, oracleAfterFst, capToExcept, mainMasterExc]
    have htr :
        oracleTrace { e with branchCap := CapR.completed rc out } r n =
          oracleTrace { e with branchCap := CapR.completed rc' out } r n := by
      simp [oracleTrace, oracleListTailT, oracleFetchTailT, oracleMMT, capToExcept,
        mainMasterExc]
    exact ⟨by rw [hfst], by rw [htr]⟩
  · intro e r n rc hmem
    rw [oracle_checkout_trace] at hmem
    have hiff :=
      (oracleTrace_delete_mem_iff { e with branchCap := CapR.completed rc "" } r n rc ""
        rfl).mp hmem
    exact absurd hiff.2 (by simp [containsSub_empty_prBranch n])

/-! ## Claim theorems: PR-branch deletion condition -/

theorem infix_append_left {l l2 : List Char} (l1 : List Char) (h : l <:+: l2) :
    l <:+: l1 ++ l2 :=
  h.trans ⟨l1, [], by simp⟩

/-- A branch whose exact name is listed makes the rendered `git branch`
output contain the name as a substring (the converse fails: a name occurring
inside another branch's name also matches). -/
theorem containsSub_render_of_mem (cur : String) (brs : List (String × Nat)) (pb : String)
    (h : memB (brs.map Prod.fst) pb = true) :
    containsSub (renderBranches cur brs) pb = true := by
  induction brs with
  | nil => simp [memB] at h
  | cons br rest ih =>
    rw [containsSub_iff]
    unfold renderBranches
    by_cases hb : br.1 = pb
    · rw [hb]
      simp only [String.data_append]
      rw [List.append_assoc ((if pb = cur then "* " else "  ").data ++ pb.data)]
      exact List.infix_append _ _ _
    · have hrest : memB (rest.map Prod.fst) pb = true := by
        simp only [List.map_cons, memB, if_neg hb] at h
        exact h
      have ih' := ih hrest
      rw [containsSub_iff] at ih'
      simp only [String.data_append]
      exact infix_append_left _ ih'

/-- C3 (counterexample to the claim as stated): with local branches `main`
and `pr-12` only, a checkout of PR 1 attempts to force-delete `pr-1` — the
substring test fires on `pr-12` — even though no branch of exactly that name
exists, and the run then aborts with the git-failure message. -/
theorem spec_c3_counterexample :
    Cmd.deleteBranch "/srv/widget" "pr-1" ∈
        (checkout_github_pr gitWorld "acme/widget" 1 c3State).2.2 ∧
      memB c3Repo.branchNames "pr-1" = false ∧
      (checkout_github_pr gitWorld "acme/widget" 1 c3State).1 =
        "Error: Git operation failed: None" := by
  decide

/-- C3 (amended): on a run whose branch listing completes with output text
`out`, the forced deletion of `pr-<n>` is attempted iff the run reaches the
listing and the string `pr-<n>` occurs as a substring of `out`; when a local
branch of exactly that name exists the listing does contain it, so exact
existence implies the attempt, but not conversely. -/
theorem spec_c3_delete_iff_substring :
    (∀ (e : OracleEnv) (r : String) (n : Int) (rc : Int) (out : String),
      e.branchCap = CapR.completed rc out →
        (Cmd.deleteBranch (pathJoin e.cwd (lastSegment r)) (prBranch n) ∈
            (checkout_github_pr oracleWorld r n e).2.2 ↔
          Cmd.listBranches (pathJoin e.cwd (lastSegment r)) ∈
              (checkout_github_pr oracleWorld r n e).2.2 ∧
            containsSub out (prBranch n) = true)) ∧
      (∀ (cur : String) (brs : List (String × Nat)) (n : Int),
        memB (brs.map Prod.fst) (prBranch n) = true →
          containsSub (renderBranches cur brs) (prBranch n) = true) := by
  constructor
  · intro e r n rc out hbc
    rw [oracle_checkout_trace]
    exact oracleTrace_delete_mem_iff e r n rc out hbc
  · intro cur brs n h
    exact containsSub_render_of_mem cur brs (prBranch n) h

theorem spec_c3_delete_iff_substring_witness :
    (Cmd.deleteBranch (pathJoin "/work" (lastSegment "acme/widget")) (prBranch 1) ∈
        (checkout_github_pr oracleWorld "acme/widget" 1
          { allOkEnv with branchCap := CapR.completed 0 "* main\n  pr-12\n" }).2.2 ↔
      Cmd.listBranches (pathJoin "/work" (lastSegment "acme/widget")) ∈
          (checkout_github_pr oracleWorld "acme/widget" 1
            { allOkEnv with branchCap := CapR.completed 0 "* main\n  pr-12\n" }).2.2 ∧
        containsSub "* main\n  pr-12\n" (prBranch 1) = true) ∧
      containsSub (renderBranches "main" [("pr-7", 3)]) (prBranch 7) = true :=
  ⟨spec_c3_delete_iff_substring.1
      { allOkEnv with branchCap := CapR.completed 0 "* main\n  pr-12\n" }
      "acme/widget" 1 0 "* main\n  pr-12\n" rfl,
   spec_c3_delete_iff_substring.2 "main" [("pr-7", 3)] 7 (by decide)⟩

/-! ## Frame lemmas: state invariants and clone occurrence -/

theorem checkout_snd {σ : Type} (W : World σ) (r : String) (n : Int) (s0 : σ) :
    (checkout_github_pr W r n s0).2 = (checkoutAttempt W r n s0).2 := by
  unfold checkout_github_pr
  rcases h : checkoutAttempt W r n s0 with ⟨ex, s, t⟩
  cases ex with
  | ok p => rfl
  | error e => cases e <;> rfl

/-- After the default-branch resolution: any state invariant preserved by
every checked command is preserved, and the appended trace contains only the
`main`/`master` checkouts — in particular no clone. -/
theorem tryMainMaster_frame {σ : Type} (W : World σ) (P : σ → Prop)
    (hch : ∀ s c, P s → P (W.runChecked s c).2) (path : String) (s : σ) (t : List Cmd)
    (hp : P s) :
    P ((tryMainMaster W path s t).2.1) ∧
      ∃ l, (tryMainMaster W path s t).2.2 = t ++ l ∧ ∀ u d, Cmd.clone u d ∉ l := by
  unfold tryMainMaster runCheckedCmd
  cases h1 : checkedToExcept (W.runChecked s (Cmd.checkoutBranch path "main")).1 with
  | ok u =>
    simp only [h1]
    exact ⟨hch _ _ hp, [Cmd.checkoutBranch path "main"], rfl, by simp⟩
  | error e1 =>
    cases e1 with
    | otherError m =>
      simp only [h1]
      exact ⟨hch _ _ hp, [Cmd.checkoutBranch path "main"], rfl, by simp⟩
    | calledProcessError rc st =>
      simp only [h1]
      cases h2 : checkedToExcept
          (W.runChecked (W.runChecked s (Cmd.checkoutBranch path "main")).2
            (Cmd.checkoutBranch path "master")).1 with
      | ok u =>
        simp only [h2]
        exact ⟨hch _ _ (hch _ _ hp),
          [Cmd.checkoutBranch path "main", Cmd.checkoutBranch path "master"], by simp, by simp⟩
      | error e2 =>
        cases e2 <;> simp only [h2] <;>
          exact ⟨hch _ _ (hch _ _ hp),
            [Cmd.checkoutBranch path "main", Cmd.checkoutBranch path "master"], by simp, by simp⟩

/-- Sequencing a checked command with a continuation preserves any state
invariant and appends no clone, provided the command is not a clone and the
continuation has the same frame property. -/
theorem andThen_checked_frame {σ β : Type} (W : World σ) (P : σ → Prop)
    (hch : ∀ s c, P s → P (W.runChecked s c).2)
    (c : Cmd) (hcne : ∀ u d, c ≠ Cmd.clone u d)
    (K : Unit → σ → List Cmd → Except PyExn β × σ × List Cmd)
    (hK : ∀ s1 t1, P s1 → P ((K () s1 t1).2.1) ∧
      ∃ l, (K () s1 t1).2.2 = t1 ++ l ∧ ∀ u d, Cmd.clone u d ∉ l)
    (s : σ) (t : List Cmd) (hp : P s) :
    P ((andThen (runCheckedCmd W c s t) K).2.1) ∧
      ∃ l, (andThen (runCheckedCmd W c s t) K).2.2 = t ++ l ∧ ∀ u d, Cmd.clone u d ∉ l := by
  unfold andThen runCheckedCmd
  cases h1 : checkedToExcept (W.runChecked s c).1 with
  | error e0 =>
    simp only [h1]
    refine ⟨hch _ _ hp, [c], rfl, ?_⟩
    intro u d hm
    rw [List.mem_singleton] at hm
    exact hcne u d hm.symm
  | ok u0 =>
    simp only [h1]
    obtain ⟨hPK, l, hl, hnc⟩ := hK (W.runChecked s c).2 (t ++ [c]) (hch _ _ hp)
    refine ⟨hPK, c :: l, ?_, ?_⟩
    · rw [hl]
      simp
    · intro u d hm
      rcases List.mem_cons.mp hm with hm | hm
      · exact hcne u d hm.symm
      · exact hnc u d hm

/-- The same for the captured branch-listing command. -/
theorem andThen_captured_frame {σ β : Type} (W : World σ) (P : σ → Prop)
    (hcap : ∀ s c, P s → P (W.runCaptured s c).2)
    (c : Cmd) (hcne : ∀ u d, c ≠ Cmd.clone u d)
    (K : String → σ → List Cmd → Except PyExn β × σ × List Cmd)
    (hK : ∀ out s1 t1, P s1 → P ((K out s1 t1).2.1) ∧
      ∃ l, (K out s1 t1).2.2 = t1 ++ l ∧ ∀ u d, Cmd.clone u d ∉ l)
    (s : σ) (t : List Cmd) (hp : P s) :
    P ((andThen (runCapturedCmd W c s t) K).2.1) ∧
      ∃ l, (andThen (runCapturedCmd W c s t) K).2.2 = t ++ l ∧ ∀ u d, Cmd.clone u d ∉ l := by
  unfold andThen runCapturedCmd
  cases h1 : capToExcept (W.runCaptured s c).1 with
  | error e0 =>
    simp only [h1]
    refine ⟨hcap _ _ hp, [c], rfl, ?_⟩
    intro u d hm
    rw [List.mem_singleton] at hm
    exact hcne u d hm.symm
  | ok out =>
    simp only [h1]
    obtain ⟨hPK, l, hl, hnc⟩ := hK out (W.runCaptured s c).2 (t ++ [c]) (hcap _ _ hp)
    refine ⟨hPK, c :: l, ?_, ?_⟩
    · rw [hl]
      simp
    · intro u d hm
      rcases List.mem_cons.mp hm with hm | hm
      · exact hcne u d hm.symm
      · exact hnc u d hm

/-- Same frame property for the PR-branch stage: invariants preserved by the
checked and captured commands persist, and no clone is appended. -/
theorem afterDefault_frame {σ : Type} (W : World σ) (P : σ → Prop)
    (hch : ∀ s c, P s → P (W.runChecked s c).2)
    (hcap : ∀ s c, P s → P (W.runCaptured s c).2)
    (path pb : String) (nn : Int) (s : σ) (t : List Cmd) (hp : P s) :
    P ((afterDefault W path pb nn s t).2.1) ∧
      ∃ l, (afterDefault W path pb nn s t).2.2 = t ++ l ∧ ∀ u d, Cmd.clone u d ∉ l := by
  unfold afterDefault
  refine andThen_captured_frame W P hcap (Cmd.listBranches path) (by simp) _ ?_ s t hp
  intro out s1 t1 hp1
  by_cases hq : containsSub out pb = true
  · rw [if_pos hq]
    refine andThen_checked_frame W P hch (Cmd.deleteBranch path pb) (by simp) _ ?_ s1 t1 hp1
    intro s2 t2 hp2
    refine andThen_checked_frame W P hch (Cmd.fetchPr path nn pb) (by simp) _ ?_ s2 t2 hp2
    intro s3 t3 hp3
    refine andThen_checked_frame W P hch (Cmd.checkoutBranch path pb) (by simp) _ ?_ s3 t3 hp3
    intro s4 t4 hp4
    exact ⟨hp4, [], by simp, by simp⟩
  · rw [if_neg hq]
    simp only [andThen]
    refine andThen_checked_frame W P hch (Cmd.fetchPr path nn pb) (by simp) _ ?_ s1 t1 hp1
    intro s3 t3 hp3
    refine andThen_checked_frame W P hch (Cmd.checkoutBranch path pb) (by simp) _ ?_ s3 t3 hp3
    intro s4 t4 hp4
    exact ⟨hp4, [], by simp, by simp⟩

/-- Frame property of the whole function: a state invariant preserved by the
individual git operations holds of the final state, and a clone command is in
the issued trace exactly when the target path was absent — with exactly the
computed URL and path. -/
theorem checkout_frame {σ : Type} (W : World σ) (P : σ → Prop)
    (hch : ∀ s c, P s → P (W.runChecked s c).2)
    (hcap : ∀ s c, P s → P (W.runCaptured s c).2)
    (r : String) (n : Int) (s0 : σ) (hp : P s0) :
    P ((checkout_github_pr W r n s0).2.1) ∧
      (∀ u d, Cmd.clone u d ∈ (checkout_github_pr W r n s0).2.2 ↔
        W.pathExists s0 (pathJoin (W.getCwd s0) (lastSegment r)) = false ∧
          u = repoUrl r ∧ d = pathJoin (W.getCwd s0) (lastSegment r)) := by
  rw [show (checkout_github_pr W r n s0).2 = (checkoutAttempt W r n s0).2 from
    checkout_snd W r n s0]
  unfold checkoutAttempt
  cases hpe : W.pathExists s0 (pathJoin (W.getCwd s0) (lastSegment r)) with
  | true =>
    simp only [hpe, ite_true, andThen]
    obtain ⟨hP1, l1, hl1, hnc1⟩ :=
      tryMainMaster_frame W P hch (pathJoin (W.getCwd s0) (lastSegment r)) s0 [] hp
    rcases h1 : tryMainMaster W (pathJoin (W.getCwd s0) (lastSegment r)) s0 [] with ⟨ex1, s1, t1⟩
    rw [h1] at hP1 hl1
    have hP1s : P s1 := hP1
    have hl1s : t1 = [] ++ l1 := hl1
    cases ex1 with
    | error e =>
      simp only [h1]
      refine ⟨hP1s, ?_⟩
      intro u d
      rw [hl1s]
      simp [hnc1 u d, hpe]
    | ok a =>
      simp only [h1]
      obtain ⟨hP2, l2, hl2, hnc2⟩ :=
        afterDefault_frame W P hch hcap (pathJoin (W.getCwd s0) (lastSegment r)) (prBranch n)
          n s1 t1 hP1s
      refine ⟨hP2, ?_⟩
      intro u d
      rw [hl2, hl1s]
      simp [hnc1 u d, hnc2 u d, hpe]
  | false =>
    simp only [hpe, Bool.false_eq_true, ite_false, andThen, runCheckedCmd]
    cases hcl : checkedToExcept
        (W.runChecked s0
          (Cmd.clone (repoUrl r) (pathJoin (W.getCwd s0) (lastSegment r)))).1 with
    | error e =>
      simp only [hcl]
      refine ⟨hch _ _ hp, ?_⟩
      intro u d
      simp [Cmd.clone.injEq, hpe]
    | ok a =>
      simp only [hcl]
      obtain ⟨hP1, l1, hl1, hnc1⟩ :=
        tryMainMaster_frame W P hch (pathJoin (W.getCwd s0) (lastSegment r))
          (W.runChecked s0
            (Cmd.clone (repoUrl r) (pathJoin (W.getCwd s0) (lastSegment r)))).2
          ([] ++ [Cmd.clone (repoUrl r) (pathJoin (W.getCwd s0) (lastSegment r))])
          (hch _ _ hp)
      rcases h1 : tryMainMaster W (pathJoin (W.getCwd s0) (lastSegment r))
          (W.runChecked s0
            (Cmd.clone (repoUrl r) (pathJoin (W.getCwd s0) (lastSegment r)))).2
          ([] ++ [Cmd.clone (repoUrl r) (pathJoin (W.getCwd s0) (lastSegment r))]) with
        ⟨ex1, s1, t1⟩
      rw [h1] at hP1 hl1
      have hP1s : P s1 := hP1
      have hl1s : t1 = [] ++ [Cmd.clone (repoUrl r) (pathJoin (W.getCwd s0) (lastSegment r))] ++ l1 := hl1
      cases ex1 with
      | error e =>
        simp only [h1]
        refine ⟨hP1s, ?_⟩
        intro u d
        rw [hl1s]
        simp [hnc1 u d, Cmd.clone.injEq, hpe]
      | ok a2 =>
        simp only [h1]
        obtain ⟨hP2, l2, hl2, hnc2⟩ :=
          afterDefault_frame W P hch hcap (pathJoin (W.getCwd s0) (lastSegment r)) (prBranch n)
            n s1 t1 hP1s
        refine ⟨hP2, ?_⟩
        intro u d
        rw [hl2, hl1s]
        simp [hnc1 u d, hnc2 u d, Cmd.clone.injEq, hpe]

/-- Recording a working tree never removes an existing one. -/
theorem setRepo_hasRepo (s : GitState) (d : String) (rep : Repo) (p : String)
    (h : s.hasRepo p = true) : (s.setRepo d rep).hasRepo p = true := by
  unfold GitState.hasRepo GitState.setRepo
  simp only [findRepo]
  by_cases hd : d = p
  · simp [hd]
  · rw [if_neg hd]
    exact h

/-- No git command of the model ever removes a working tree. -/
theorem gitRunChecked_hasRepo (s : GitState) (c : Cmd) (p : String)
    (h : s.hasRepo p = true) : ((gitRunChecked s c).2).hasRepo p = true := by
  cases c <;> (simp only [gitRunChecked]; repeat' split) <;>
    first
      | exact h
      | exact setRepo_hasRepo _ _ _ _ h

theorem gitRunCaptured_hasRepo (s : GitState) (c : Cmd) (p : String)
    (h : s.hasRepo p = true) : ((gitRunCaptured s c).2).hasRepo p = true := by
  cases c <;> (simp only [gitRunCaptured]; repeat' split) <;> exact h

/-! ## Claim theorem: clone exactly on first sight, no deletion -/

/-- C7: a clone is issued exactly when the target path `<cwd>/<last segment>`
does not exist — and then only with the computed URL and path, so an existing
tree is reused without any command referring to the remote — and the engine
never deletes a working tree: every existing checkout survives the run. -/
theorem spec_c7_clone_iff_absent :
    (∀ (σ : Type) (W : World σ) (r : String) (n : Int) (s0 : σ) (u d : String),
      Cmd.clone u d ∈ (checkout_github_pr W r n s0).2.2 ↔
        W.pathExists s0 (pathJoin (W.getCwd s0) (lastSegment r)) = false ∧
          u = repoUrl r ∧ d = pathJoin (W.getCwd s0) (lastSegment r)) ∧
      (∀ (r : String) (n : Int) (s0 : GitState) (p : String),
        s0.hasRepo p = true →
          ((checkout_github_pr gitWorld r n s0).2.1).hasRepo p = true) := by
  constructor
  · intro σ W r n s0 u d
    exact (checkout_frame W (fun _ => True) (fun _ _ _ => trivial) (fun _ _ _ => trivial)
      r n s0 trivial).2 u d
  · intro r n s0 p hp
    exact (checkout_frame gitWorld (fun s => s.hasRepo p = true)
      (fun s c hq => gitRunChecked_hasRepo s c p hq)
      (fun s c hq => gitRunCaptured_hasRepo s c p hq) r n s0 hp).1

theorem spec_c7_clone_iff_absent_witness :
    c3State.hasRepo "/srv/widget" = true ∧
      ((checkout_github_pr gitWorld "acme/widget" 1 c3State).2.1).hasRepo "/srv/widget" = true :=
  ⟨by decide,
   spec_c7_clone_iff_absent.2 "acme/widget" 1 c3State "/srv/widget" (by decide)⟩

/-! ## Claim theorems: idempotent re-invocation -/

/-- C4 (counterexample to the claim as stated): for a repository whose
default branch is neither `main` nor `master` (here `trunk`), the first call
succeeds and leaves `pr-7` checked out, but the second call — unable to move
off `pr-7` because neither `main` nor `master` exists — tries to force-delete
the currently checked-out branch, which git refuses, so the second call
returns an error instead of the same path. -/
theorem spec_c4_counterexample :
    (checkout_github_pr gitWorld "acme/widget" 7
        (initState "/w" "acme/widget" (mkRemote "trunk" 5 7 99))).1 = "/w/widget" ∧
      (checkout_github_pr gitWorld "acme/widget" 7
          (checkout_github_pr gitWorld "acme/widget" 7
            (initState "/w" "acme/widget" (mkRemote "trunk" 5 7 99))).2.1).1 =
        "Error: Git operation failed: None" := by
  constructor <;> decide

/-- C4 (amended): for every repository whose remote default branch is `main`
or `master`, calling the checkout twice in succession with no intervening
remote change returns the same absolute path both times; the second call does
not fail merely because `pr-<n>` already exists — it is deleted after the
default-branch checkout has moved off it, then recreated. -/
theorem spec_c4_idempotent_default_branch (cwd r : String) (n : Int) (tip hc : Nat)
    (d : String) (hd : d = "main" ∨ d = "master") :
    (checkout_github_pr gitWorld r n (initState cwd r (mkRemote d tip n hc))).1 =
        osAbspath (pathJoin cwd (lastSegment r)) ∧
      (checkout_github_pr gitWorld r n
          (checkout_github_pr gitWorld r n (initState cwd r (mkRemote d tip n hc))).2.1).1 =
        (checkout_github_pr gitWorld r n (initState cwd r (mkRemote d tip n hc))).1 := by
  have hm := prBranch_ne_main n
  have hm2 : ¬("main" = prBranch n) := fun hq => hm hq.symm
  have hms := prBranch_ne_master n
  have hms2 : ¬("master" = prBranch n) := fun hq => hms hq.symm
  rcases hd with rfl | rfl
  · have hA : containsSub (renderBranches "main" [("main", tip)]) (prBranch n) = false := by
      rw [show renderBranches "main" [("main", tip)] = "* main\n" from rfl]
      exact containsSub_eq_false_of_char _ _ 'p' (p_mem_prBranch n) (by decide)
    have hB : containsSub (renderBranches "main" [(prBranch n, hc), ("main", tip)])
        (prBranch n) = true :=
      containsSub_render_of_mem "main" _ _ (by simp [memB])
    constructor <;>
      simp [checkout_github_pr, checkoutAttempt, afterDefault, tryMainMaster, andThen,
        runCheckedCmd, runCapturedCmd, checkedToExcept, capToExcept, gitWorld, gitRunChecked,
        gitRunCaptured, GitState.setRepo, GitState.hasRepo, findRepo, memB, removeBranch,
        Repo.branchNames, initState, mkRemote, hm, hm2, hms, hms2, hA, hB]
  · have hA : containsSub (renderBranches "master" [("master", tip)]) (prBranch n) = false := by
      rw [show renderBranches "master" [("master", tip)] = "* master\n" from rfl]
      exact containsSub_eq_false_of_char _ _ 'p' (p_mem_prBranch n) (by decide)
    have hB : containsSub (renderBranches "master" [(prBranch n, hc), ("master", tip)])
        (prBranch n) = true :=
      containsSub_render_of_mem "master" _ _ (by simp [memB])
    constructor <;>
      simp [checkout_github_pr, checkoutAttempt, afterDefault, tryMainMaster, andThen,
        runCheckedCmd, runCapturedCmd, checkedToExcept, capToExcept, gitWorld, gitRunChecked,
        gitRunCaptured, GitState.setRepo, GitState.hasRepo, findRepo, memB, removeBranch,
        Repo.branchNames, initState, mkRemote, hm, hm2, hms, hms2, hA, hB]

theorem spec_c4_idempotent_default_branch_witness :
    ("master" = "main" ∨ "master" = "master") ∧
      ((checkout_github_pr gitWorld "acme/widget" 7
            (initState "/w" "acme/widget" (mkRemote "master" 5 7 99))).1 =
          osAbspath (pathJoin "/w" (lastSegment "acme/widget")) ∧
        (checkout_github_pr gitWorld "acme/widget" 7
            (checkout_github_pr gitWorld "acme/widget" 7
              (initState "/w" "acme/widget" (mkRemote "master" 5 7 99))).2.1).1 =
          (checkout_github_pr gitWorld "acme/widget" 7
              (initState "/w" "acme/widget" (mkRemote "master" 5 7 99))).1) :=
  ⟨Or.inr rfl,
   spec_c4_idempotent_default_branch "/w" "acme/widget" 7 5 99 "master" (Or.inr rfl)⟩

end GitClone
